import Mathlib

/-!
Verification of the load-orchestration core (`dlt/load/load.py`) against its
natural-language specification.  The Python module is shallowly embedded:
pure decision logic becomes Lean functions, storage mutation becomes
explicit state passing over `PackageJobs`, and the side effects the claims
talk about (file moves, follow-up imports, collector updates, archive calls)
are recorded as explicit event traces.  Destination clients, which are
external collaborators, enter as oracle parameters.
-/

namespace DltLoad

/-! ## Job data model (`dlt.common.storages.load_storage`) -/

/-- Job states as polled through `LoadJob.state()` (`TLoadJobState`). -/
inductive TLoadJobState
  | ready
  | running
  | failed
  | retry
  | completed
  deriving DecidableEq, Repr

/-- The four on-disk state folders of a normalized package. -/
inductive JobFolder
  | new_jobs
  | started_jobs
  | completed_jobs
  | failed_jobs
  deriving DecidableEq, Repr

/-- Parsed canonical job file name
`table_name.file_id.retry_count.file_format` (`ParsedLoadJobFileName`). -/
structure JobFileInfo where
  tableName : String
  fileId : String
  retryCount : Nat
  fileFormat : String
  deriving DecidableEq, Repr

/-- `ParsedLoadJobFileName.job_id()`: `file_id` and `file_format`, stable
across retries. -/
def JobFileInfo.jobId (f : JobFileInfo) : String :=
  f.fileId ++ "." ++ f.fileFormat

/-- Modelled from the spec: `ParsedLoadJobFileName.with_retry` is not under
`src/`; per the spec a retried job moves back to the new folder "with an
incremented retry counter". -/
def JobFileInfo.with_retry (f : JobFileInfo) : JobFileInfo :=
  { f with retryCount := f.retryCount + 1 }

/-- A load job handle as the orchestrator sees it: parsed file name, polled
state, whether it implements `HasFollowupJobs`, whether it is a
`RunnableLoadJob` (only those are submitted to the executor), the
`exception()` detail, and its own `create_followup_jobs` body. -/
structure LoadJobModel where
  fileInfo : JobFileInfo
  state : TLoadJobState
  hasFollowupJobs : Bool
  runnable : Bool
  exceptionMsg : String
  ownFollowups : TLoadJobState → List JobFileInfo

/-- Loader configuration fields used by the module (`LoaderConfiguration`
plus the optional staging destination's supported loader file formats;
`stagingFormats = none` means no staging destination is configured). -/
structure LoadConfig where
  stagingFormats : Option (List String)
  raise_on_failed_jobs : Bool
  raise_on_max_retries : Nat
  truncate_staging_dataset : Bool
  deriving Repr

/-- `Load.is_staging_destination_job`: a staging destination is configured
and the file extension (which in the canonical job file name is the file
format) is among the staging destination's supported loader file formats. -/
def is_staging_destination_job (cfg : LoadConfig) (f : JobFileInfo) : Bool :=
  match cfg.stagingFormats with
  | none => false
  | some fs => decide (f.fileFormat ∈ fs)

/-! ## Package storage state (`PackageStorage` job folders) -/

/-- The job files of one package, partitioned by state folder. -/
structure PackageJobs where
  new_jobs : List JobFileInfo
  started_jobs : List JobFileInfo
  completed_jobs : List JobFileInfo
  failed_jobs : List JobFileInfo
  deriving Repr

/-- `list_all_jobs_with_states`: every job file with the folder it lives in. -/
def allJobs (pkg : PackageJobs) : List (JobFolder × JobFileInfo) :=
  pkg.new_jobs.map (fun f => (JobFolder.new_jobs, f))
    ++ pkg.started_jobs.map (fun f => (JobFolder.started_jobs, f))
    ++ pkg.completed_jobs.map (fun f => (JobFolder.completed_jobs, f))
    ++ pkg.failed_jobs.map (fun f => (JobFolder.failed_jobs, f))

/-- `import_job (job_state="new_jobs")`: add a follow-up file to the new folder. -/
def import_job (pkg : PackageJobs) (f : JobFileInfo) : PackageJobs :=
  { pkg with new_jobs := pkg.new_jobs ++ [f] }

/-- `start_job`: move a file from the new folder to the started folder. -/
def start_job (pkg : PackageJobs) (f : JobFileInfo) : PackageJobs :=
  { pkg with
    new_jobs := pkg.new_jobs.filter (fun x => decide (x ≠ f))
    started_jobs := pkg.started_jobs ++ [f] }

/-- `fail_job`: move a file from the started folder to the failed folder. -/
def fail_job (pkg : PackageJobs) (f : JobFileInfo) : PackageJobs :=
  { pkg with
    started_jobs := pkg.started_jobs.filter (fun x => decide (x ≠ f))
    failed_jobs := pkg.failed_jobs ++ [f] }

/-- `retry_job`: move a file from the started folder back to the new folder
with the retry counter incremented. -/
def retry_job (pkg : PackageJobs) (f : JobFileInfo) : PackageJobs :=
  { pkg with
    started_jobs := pkg.started_jobs.filter (fun x => decide (x ≠ f))
    new_jobs := pkg.new_jobs ++ [f.with_retry] }

/-- `complete_job`: move a file from the started folder to the completed folder. -/
def complete_job (pkg : PackageJobs) (f : JobFileInfo) : PackageJobs :=
  { pkg with
    started_jobs := pkg.started_jobs.filter (fun x => decide (x ≠ f))
    completed_jobs := pkg.completed_jobs ++ [f] }

/-! ## Progress metrics (`update_loadpackage_info`, load.py lines 417-427) -/

/-- One `Collector.update` call: counter name, increment, optional total,
optional message, optional label. -/
inductive CollectorEvent
  | update (counter : String) (inc : Nat) (total : Option Nat)
      (message : Option String) (label : Option String)
  deriving DecidableEq, Repr

/-- `Load.update_loadpackage_info`: report completed+failed as completed
progress out of the total over all four folders, and emit a labeled warning
increment when any job failed. -/
def update_loadpackage_info (pkg : PackageJobs) : List CollectorEvent :=
  let total_jobs := pkg.new_jobs.length + pkg.started_jobs.length
    + pkg.completed_jobs.length + pkg.failed_jobs.length
  let no_failed_jobs := pkg.failed_jobs.length
  let no_completed_jobs := pkg.completed_jobs.length + no_failed_jobs
  [CollectorEvent.update "Jobs" no_completed_jobs (some total_jobs) none none]
    ++ (if 0 < no_failed_jobs then
          [CollectorEvent.update "Jobs" no_failed_jobs none
            (some "WARNING: Some of the jobs failed!") (some "Failed")]
        else [])

/-! ## Follow-up job resolution (`create_followup_jobs`, load.py lines 268-301) -/

/-- Table-chain topology queries on the schema, consumed by the loader:
`get_top_level_table` and the ordered table chain of a top-level table. -/
structure SchemaModel where
  topOf : String → String
  chainOf : String → List String

/-- The destination client operation
`create_table_chain_completed_followup_jobs(table_chain, table_chain_jobs)`,
an external-collaborator oracle. -/
structure ClientModel where
  createTableChainFollowups :
    List String → List (JobFolder × JobFileInfo) → List JobFileInfo

/-- Modelled from the spec: `dlt.load.utils.get_completed_table_chain` is not
under `src/`.  Per the spec, it computes the chain of the top-level table and
returns it exactly when every job for every table in that chain has reached a
terminal state in the current snapshot, where a job in the completed or
failed folder is terminal and the job being completed (still physically in
the started folder) is counted as already terminal via its job id. -/
def get_completed_table_chain (schema : SchemaModel)
    (all_jobs : List (JobFolder × JobFileInfo)) (topTable : String)
    (being_completed_job_id : String) : Option (List String) :=
  let chain := schema.chainOf topTable
  if chain.all (fun t =>
      (all_jobs.filter (fun p => p.2.tableName == t)).all (fun p =>
        p.1 == JobFolder.completed_jobs || p.1 == JobFolder.failed_jobs
          || p.2.jobId == being_completed_job_id))
  then some chain else none

/-- The table-chain arm of `Load.create_followup_jobs` (load.py lines
277-299): top-level table of the finishing job's table, chain-completion
check over the current snapshot, and the client call over the chain's jobs
in the completed or started folders.  Returns the top-level table together
with the client's follow-up jobs when the chain is complete. -/
def table_chain_followups (client : ClientModel) (schema : SchemaModel)
    (all_jobs : List (JobFolder × JobFileInfo)) (j : LoadJobModel) :
    Option (String × List JobFileInfo) :=
  let top_job_table := schema.topOf j.fileInfo.tableName
  match get_completed_table_chain schema all_jobs top_job_table
      j.fileInfo.jobId with
  | some table_chain =>
      let table_chain_jobs := all_jobs.filter (fun p =>
        decide (p.2.tableName ∈ table_chain)
          && (p.1 == JobFolder.completed_jobs || p.1 == JobFolder.started_jobs))
      some (top_job_table, client.createTableChainFollowups table_chain table_chain_jobs)
  | none => none

/-- The chain contribution to `create_followup_jobs`: evaluated only for
state `completed` and only for jobs that are not staging-destination jobs
(load.py line 276); empty when the chain is not complete or the client
returns nothing. -/
def table_chain_part (cfg : LoadConfig) (client : ClientModel)
    (schema : SchemaModel) (all_jobs : List (JobFolder × JobFileInfo))
    (st : TLoadJobState) (j : LoadJobModel) : List JobFileInfo :=
  if st == TLoadJobState.completed && !(is_staging_destination_job cfg j.fileInfo) then
    match table_chain_followups client schema all_jobs j with
    | some (_, fjs) => fjs
    | none => []
  else []

/-- `Load.create_followup_jobs`: for a finishing job implementing
`HasFollowupJobs`, the chain follow-ups (when applicable) followed by the
job's own `create_followup_jobs(state)`. -/
def create_followup_jobs (cfg : LoadConfig) (client : ClientModel)
    (schema : SchemaModel) (all_jobs : List (JobFolder × JobFileInfo))
    (st : TLoadJobState) (j : LoadJobModel) : List JobFileInfo :=
  if j.hasFollowupJobs then
    table_chain_part cfg client schema all_jobs st j ++ j.ownFollowups st
  else []

/-! ## Job completion loop body (`complete_jobs`, load.py lines 303-392) -/

/-- Pending exceptions scheduled by `complete_jobs`:
`LoadClientJobFailed(load_id, job_id, failed_message)` and
`LoadClientJobRetry(load_id, job_id, retry_count, max_retry_count)`. -/
inductive PendingException
  | jobFailed (load_id : String) (job_id : String) (failed_message : String)
  | jobRetry (load_id : String) (job_id : String) (retry_count : Nat)
      (max_retry_count : Nat)
  deriving DecidableEq, Repr

/-- Observable actions of one `complete_jobs` pass, in program order:
follow-up resolution entry, a chain firing (the client producing a nonempty
chain follow-up list), follow-up imports into the new folder, the terminal
or retry file moves, and collector updates. -/
inductive LoadEvent
  | followupResolution (job_id : String) (state : TLoadJobState)
  | chainFire (top_table : String)
  | importJob (f : JobFileInfo)
  | failJob (f : JobFileInfo)
  | retryJob (f : JobFileInfo)
  | completeJob (f : JobFileInfo)
  | collectorUpdate (label : Option String)
  deriving DecidableEq, Repr

/-- Trace annotation: the chain arm fired, i.e. the walrus condition
`if follow_up_jobs := client.create_table_chain_completed_followup_jobs(...)`
was truthy for a completed non-staging job with follow-up capability. -/
def chainFireEvents (cfg : LoadConfig) (client : ClientModel)
    (schema : SchemaModel) (pkg : PackageJobs) (j : LoadJobModel) :
    List LoadEvent :=
  if j.hasFollowupJobs && !(is_staging_destination_job cfg j.fileInfo) then
    match table_chain_followups client schema (allJobs pkg) j with
    | some (t, fjs) => if fjs.isEmpty then [] else [LoadEvent.chainFire t]
    | none => []
  else []

/-- The events emitted by one iteration of the `complete_jobs` loop body for
a polled job, in source order (load.py lines 331-390). -/
def stepEvents (cfg : LoadConfig) (client : ClientModel) (schema : SchemaModel)
    (pkg : PackageJobs) (j : LoadJobModel) : List LoadEvent :=
  match j.state with
  | TLoadJobState.running => []
  | TLoadJobState.ready => []
  | TLoadJobState.failed =>
      [LoadEvent.followupResolution j.fileInfo.jobId TLoadJobState.failed]
        ++ (create_followup_jobs cfg client schema (allJobs pkg)
              TLoadJobState.failed j).map LoadEvent.importJob
        ++ [LoadEvent.failJob j.fileInfo, LoadEvent.collectorUpdate none,
            LoadEvent.collectorUpdate (some "Failed")]
  | TLoadJobState.retry => [LoadEvent.retryJob j.fileInfo]
  | TLoadJobState.completed =>
      [LoadEvent.followupResolution j.fileInfo.jobId TLoadJobState.completed]
        ++ chainFireEvents cfg client schema pkg j
        ++ (create_followup_jobs cfg client schema (allJobs pkg)
              TLoadJobState.completed j).map LoadEvent.importJob
        ++ [LoadEvent.completeJob j.fileInfo, LoadEvent.collectorUpdate none]

/-- The storage mutation of one iteration of the `complete_jobs` loop body:
failed and completed jobs first import their follow-up jobs into the new
folder, then move the finishing file (lines 339-383); retry moves the file
back to the new folder (line 363). -/
def stepPkg (cfg : LoadConfig) (client : ClientModel) (schema : SchemaModel)
    (pkg : PackageJobs) (j : LoadJobModel) : PackageJobs :=
  match j.state with
  | TLoadJobState.running => pkg
  | TLoadJobState.ready => pkg
  | TLoadJobState.failed =>
      let fjs := create_followup_jobs cfg client schema (allJobs pkg)
        TLoadJobState.failed j
      fail_job (fjs.foldl import_job pkg) j.fileInfo
  | TLoadJobState.retry => retry_job pkg j.fileInfo
  | TLoadJobState.completed =>
      let fjs := create_followup_jobs cfg client schema (allJobs pkg)
        TLoadJobState.completed j
      complete_job (fjs.foldl import_job pkg) j.fileInfo

/-- The pending-exception update of one iteration of the `complete_jobs`
loop body (lines 352-358 and 367-376): failed jobs schedule
`LoadClientJobFailed` under `raise_on_failed_jobs`; retried jobs schedule
`LoadClientJobRetry` when the configured threshold is nonzero and the
post-increment retry count is a positive multiple of it. -/
def stepPending (cfg : LoadConfig) (load_id : String)
    (pending : Option PendingException) (j : LoadJobModel) :
    Option PendingException :=
  match j.state with
  | TLoadJobState.failed =>
      if cfg.raise_on_failed_jobs then
        some (PendingException.jobFailed load_id j.fileInfo.jobId j.exceptionMsg)
      else pending
  | TLoadJobState.retry =>
      if cfg.raise_on_max_retries ≠ 0 then
        let r_c := j.fileInfo.retryCount + 1
        if 0 < r_c ∧ r_c % cfg.raise_on_max_retries = 0 then
          some (PendingException.jobRetry load_id j.fileInfo.jobId r_c
            cfg.raise_on_max_retries)
        else pending
      else pending
  | _ => pending

/-- Accumulated result of a `complete_jobs` pass: the jobs still running,
the scheduled pending exception, the package folders, and the event trace. -/
structure StepResult where
  remaining : List LoadJobModel
  pending : Option PendingException
  pkg : PackageJobs
  events : List LoadEvent

/-- One iteration of the `complete_jobs` loop body over the accumulator. -/
def stepJob (cfg : LoadConfig) (client : ClientModel) (schema : SchemaModel)
    (load_id : String) (acc : StepResult) (j : LoadJobModel) : StepResult :=
  { remaining := acc.remaining
      ++ (if j.state == TLoadJobState.running then [j] else [])
    pending := stepPending cfg load_id acc.pending j
    pkg := stepPkg cfg client schema acc.pkg j
    events := acc.events ++ stepEvents cfg client schema acc.pkg j }

/-- `Load.complete_jobs`: poll every tracked job once, commit its state
transition, and collect the remaining jobs and any pending exception. -/
def complete_jobs (cfg : LoadConfig) (client : ClientModel)
    (schema : SchemaModel) (load_id : String) (pkg : PackageJobs)
    (jobs : List LoadJobModel) : StepResult :=
  jobs.foldl (stepJob cfg client schema load_id)
    { remaining := [], pending := none, pkg := pkg, events := [] }

/-- Number of chain firings for a given top-level table in a trace. -/
def fireCount (top_table : String) (events : List LoadEvent) : Nat :=
  events.countP (fun e => e == LoadEvent.chainFire top_table)

/-! ## Job construction (`get_job`, load.py lines 134-182) -/

/-- Exception classification as the `except` clauses of `get_job` see it:
`DestinationTerminalException` (and, modelled from the spec since
`dlt/load/exceptions.py` is not under `src/`, its subclasses
`LoadClientUnsupportedFileFormats` and `LoadClientUnsupportedWriteDisposition`,
both terminal per the spec) versus every other exception. -/
inductive ClientError
  | terminal (msg : String)
  | other (msg : String)
  deriving DecidableEq, Repr

/-- Oracle for the destination client calls made during job construction:
`prepare_load_table` yielding the table's write disposition, and
`get_load_job` yielding an optional job. -/
structure GetJobClient where
  prepareLoadTable : String → Except ClientError String
  getLoadJob : Except ClientError (Option LoadJobModel)

/-- The body of the `try` block of `Load.get_job` (lines 141-172): the
unsupported-file-format check, `prepare_load_table`, the write-disposition
check, `get_load_job`, and the terminal error raised when the client returns
no job for the file. -/
def get_job_inner (supported_job_file_formats : List String)
    (gc : GetJobClient) (f : JobFileInfo) : Except ClientError LoadJobModel :=
  if f.fileFormat ∉ supported_job_file_formats then
    Except.error (ClientError.terminal "LoadClientUnsupportedFileFormats")
  else
    match gc.prepareLoadTable f.tableName with
    | Except.error e => Except.error e
    | Except.ok write_disposition =>
        if write_disposition ∉ ["append", "replace", "merge"] then
          Except.error (ClientError.terminal "LoadClientUnsupportedWriteDisposition")
        else
          match gc.getLoadJob with
          | Except.error e => Except.error e
          | Except.ok none =>
              Except.error (ClientError.terminal
                "Destination could not create a job for file")
          | Except.ok (some j) => Except.ok j

/-- `FinalizedLoadJobWithFollowupJobs.from_file_path`: a non-runnable job
fixed in the given terminal or retry state, carrying the exception text and
implementing `HasFollowupJobs` with no follow-ups of its own. -/
def finalized_load_job (f : JobFileInfo) (st : TLoadJobState) (msg : String) :
    LoadJobModel :=
  { fileInfo := f, state := st, hasFollowupJobs := true, runnable := false,
    exceptionMsg := msg, ownFollowups := fun _ => [] }

/-- `Load.get_job` (lines 134-180): construction failures never escape; a
terminal destination error finalizes the job as failed, any other exception
finalizes it as retry. -/
def get_job (supported_job_file_formats : List String) (gc : GetJobClient)
    (f : JobFileInfo) : LoadJobModel :=
  match get_job_inner supported_job_file_formats gc f with
  | Except.ok j => j
  | Except.error (ClientError.terminal msg) =>
      finalized_load_job f TLoadJobState.failed msg
  | Except.error (ClientError.other msg) =>
      finalized_load_job f TLoadJobState.retry msg

/-- `Load.get_job` line 181: the constructed job's file is unconditionally
moved from the new folder to the started folder via `start_job`. -/
def get_job_with_storage (supported_job_file_formats : List String)
    (gc : GetJobClient) (pkg : PackageJobs) (f : JobFileInfo) :
    LoadJobModel × PackageJobs :=
  (get_job supported_job_file_formats gc f, start_job pkg f)

/-- `Load.start_new_jobs` lines 226-228: only jobs that are
`RunnableLoadJob` instances are submitted to the executor pool. -/
def runnable_submissions (jobs : List LoadJobModel) : List LoadJobModel :=
  jobs.filter (fun j => j.runnable)

/-! ## Crash recovery (`retrieve_jobs`, load.py lines 232-260, 479-483) -/

/-- Which destination client instance handles an operation. -/
inductive ClientTag
  | primary
  | staging
  deriving DecidableEq, Repr

/-- One `restore_file_load` invocation: the client it is made on (`none`
models a null `staging_client` being dereferenced) and the file. -/
structure RestoreCall where
  client : Option ClientTag
  file : JobFileInfo
  deriving DecidableEq, Repr

/-- The loop of `Load.retrieve_jobs` (lines 244-258): the `client` variable
is rebound by `client = staging_client if is_staging_destination_job(...)
else client` and therefore carried from one iteration to the next. -/
def retrieve_jobs_go (cfg : LoadConfig) (staging_client : Option ClientTag) :
    Option ClientTag → List JobFileInfo → List RestoreCall
  | _, [] => []
  | client, f :: rest =>
      let c := if is_staging_destination_job cfg f then staging_client else client
      { client := c, file := f } :: retrieve_jobs_go cfg staging_client c rest

/-- `Load.retrieve_jobs`: restore every file found in the started folder,
choosing the client per file as the loop does. -/
def retrieve_jobs (cfg : LoadConfig) (client : Option ClientTag)
    (started_jobs : List JobFileInfo) (staging_client : Option ClientTag) :
    List RestoreCall :=
  retrieve_jobs_go cfg staging_client client started_jobs

/-- `Load.load_single_package` lines 479-483: with a staging destination
configured, `retrieve_jobs` is called with the staging client and then,
unconditionally, called a second time without one. -/
def collect_unfinished_restore_calls (cfg : LoadConfig)
    (started_jobs : List JobFileInfo) : List RestoreCall :=
  (if cfg.stagingFormats.isSome then
      retrieve_jobs cfg (some ClientTag.primary) started_jobs (some ClientTag.staging)
    else [])
    ++ retrieve_jobs cfg (some ClientTag.primary) started_jobs none

/-- The client context `get_job` constructs the job under (lines 142-146):
the staging destination client exactly for staging-destination jobs. -/
def get_job_client_tag (cfg : LoadConfig) (f : JobFileInfo) : ClientTag :=
  if is_staging_destination_job cfg f then ClientTag.staging else ClientTag.primary

/-! ## Package completion (`complete_package`,
`_maybe_truncate_staging_dataset`, load.py lines 394-415, 551-580) -/

/-- Observable package-level actions: the mid-loop info update, the
destination's `complete_load`, the staging-dataset truncate attempt, the
warning logged when it fails, and `complete_load_package(load_id, aborted)`. -/
inductive PkgEvent
  | updateInfo
  | completeLoad
  | truncateStagingAttempt
  | warnTruncateFailed (msg : String)
  | archive (aborted : Bool)
  deriving DecidableEq, Repr

/-- `Load._maybe_truncate_staging_dataset`: a no-op unless the client
supports a staging dataset and truncation is configured; the
`initialize_storage(truncate_tables)` call is wrapped in `try`/`except`, so
a failure only logs a warning and the function always returns normally. -/
def maybe_truncate_staging_dataset (cfg : LoadConfig)
    (client_with_staging_dataset : Bool)
    (truncate_result : Except String Unit) : List PkgEvent :=
  if !(client_with_staging_dataset && cfg.truncate_staging_dataset) then []
  else
    PkgEvent.truncateStagingAttempt ::
      (match truncate_result with
       | Except.ok _ => []
       | Except.error msg => [PkgEvent.warnTruncateFailed msg])

/-- `Load.complete_package`: for a non-aborted package run `complete_load`
and the best-effort staging truncate, then archive the package with the
given aborted flag. -/
def complete_package (cfg : LoadConfig) (client_with_staging_dataset : Bool)
    (truncate_result : Except String Unit) (aborted : Bool) : List PkgEvent :=
  (if !aborted then
      PkgEvent.completeLoad ::
        maybe_truncate_staging_dataset cfg client_with_staging_dataset
          truncate_result
    else [])
    ++ [PkgEvent.archive aborted]

/-! ## Loop exit and pending-exception handling
(`load_single_package`, load.py lines 486-517) -/

/-- Outcome of the bottom of one poll/dispatch iteration: keep looping,
exit the loop normally, or raise with the package-level events performed
before the exception propagates. -/
inductive LoopStep
  | continueLoop (remaining : List LoadJobModel)
  | breakLoop
  | raised (evs : List PkgEvent) (e : PendingException)

/-- Lines 495-507: with no jobs left, a pending exception is raised.  The
handler `except LoadClientJobFailed` updates the package info, archives the
package as aborted, and re-raises; modelled from the spec for the class
hierarchy (`dlt/load/exceptions.py` is not under `src/`):
`LoadClientJobRetry` is not a subclass of `LoadClientJobFailed` — the spec
says a max-retry breach leaves the job retryable on a subsequent run — so it
propagates uncaught, without the package being archived. -/
def loop_exit_check (cfg : LoadConfig) (client_with_staging_dataset : Bool)
    (truncate_result : Except String Unit) (remaining : List LoadJobModel)
    (pending : Option PendingException) : LoopStep :=
  if remaining.isEmpty then
    match pending with
    | some e =>
        match e with
        | PendingException.jobFailed _ _ _ =>
            LoopStep.raised
              (PkgEvent.updateInfo ::
                complete_package cfg client_with_staging_dataset
                  truncate_result true) e
        | PendingException.jobRetry _ _ _ _ => LoopStep.raised [] e
    | none => LoopStep.breakLoop
  else LoopStep.continueLoop remaining

/-- Whether a loop outcome archived the package as aborted before raising. -/
def raised_with_abort_archive : LoopStep → Bool
  | LoopStep.raised evs _ => evs.contains (PkgEvent.archive true)
  | _ => false

/-- The exception a loop outcome re-raises to the caller, if any. -/
def raises_exception : LoopStep → Option PendingException
  | LoopStep.raised _ e => some e
  | _ => none

/-! # Theorems -/

/-- C10: in every per-iteration progress update, the completed count reported
to the collector equals completed-folder plus failed-folder cardinality, the
total equals the sum over all four state folders, and a labeled Failed
warning increment is emitted exactly when the failed count is positive. -/
theorem c10_progress_counts (pkg : PackageJobs) :
    (update_loadpackage_info pkg).head? =
      some (CollectorEvent.update "Jobs"
        (pkg.completed_jobs.length + pkg.failed_jobs.length)
        (some (pkg.new_jobs.length + pkg.started_jobs.length
          + pkg.completed_jobs.length + pkg.failed_jobs.length)) none none)
    ∧ ((CollectorEvent.update "Jobs" pkg.failed_jobs.length none
          (some "WARNING: Some of the jobs failed!") (some "Failed"))
          ∈ update_loadpackage_info pkg
        ↔ 0 < pkg.failed_jobs.length) := by
  constructor
  · rfl
  · unfold update_loadpackage_info
    by_cases h : 0 < pkg.failed_jobs.length
    · simp [h]
    · simp [h]

/-- C9: for a successfully completed package load with staging-dataset
truncation configured, a failure of the staging-dataset truncate step is
logged as a warning only and never fails the run: `complete_package` still
runs `complete_load` and archives the package as not aborted. -/
theorem c9_truncate_failure_warn_only (cfg : LoadConfig) (msg : String)
    (hcfg : cfg.truncate_staging_dataset = true) :
    PkgEvent.warnTruncateFailed msg
        ∈ complete_package cfg true (Except.error msg) false
    ∧ PkgEvent.completeLoad ∈ complete_package cfg true (Except.error msg) false
    ∧ PkgEvent.archive false ∈ complete_package cfg true (Except.error msg) false
    ∧ PkgEvent.archive true ∉ complete_package cfg true (Except.error msg) false := by
  simp [complete_package, maybe_truncate_staging_dataset, hcfg]

/-- Witness for C9 at a concrete configuration and error message. -/
theorem c9_witness :
    (LoadConfig.mk none false 0 true).truncate_staging_dataset = true
    ∧ PkgEvent.warnTruncateFailed "timeout"
        ∈ complete_package (LoadConfig.mk none false 0 true) true
            (Except.error "timeout") false :=
  ⟨rfl, (c9_truncate_failure_warn_only (LoadConfig.mk none false 0 true)
    "timeout" rfl).1⟩

/-- C3 counterexample: a run aborted by the max-retries pending exception
(`LoadClientJobRetry`) re-raises without the package being archived as
aborted, because the handler catches only `LoadClientJobFailed`. -/
theorem c3_counterexample :
    raises_exception (loop_exit_check (LoadConfig.mk none false 2 false) false
        (Except.ok ()) [] (some (PendingException.jobRetry "load1" "job1" 2 2)))
      = some (PendingException.jobRetry "load1" "job1" 2 2)
    ∧ raised_with_abort_archive (loop_exit_check (LoadConfig.mk none false 2 false)
        false (Except.ok ()) []
        (some (PendingException.jobRetry "load1" "job1" 2 2))) = false :=
  ⟨rfl, rfl⟩

/-- C3 amended: every pending exception raised with no jobs left is re-raised
to the caller, but only the raise-on-failed-jobs exception
(`LoadClientJobFailed`) archives the package as aborted before the re-raise;
the max-retries exception propagates without archiving, leaving the package
open for a later run. -/
theorem c3_amended_pending_exception_handling (cfg : LoadConfig) (wsd : Bool)
    (tr : Except String Unit) (e : PendingException) :
    (∃ evs, loop_exit_check cfg wsd tr [] (some e) = LoopStep.raised evs e)
    ∧ (raised_with_abort_archive (loop_exit_check cfg wsd tr [] (some e)) = true
        ↔ ∃ l j m, e = PendingException.jobFailed l j m) := by
  cases e with
  | jobFailed l j m =>
      refine ⟨⟨_, rfl⟩, ?_⟩
      simp [loop_exit_check, raised_with_abort_archive, complete_package]
  | jobRetry l j r n =>
      refine ⟨⟨[], rfl⟩, ?_⟩
      simp [loop_exit_check, raised_with_abort_archive]

/-- C5: evaluation of the crash-recovery section at the failing input.  With
a staging destination configured, the unconditional second `retrieve_jobs`
call restores the started file a second time (and hands staging-format files
a null client), while without a staging destination it is restored exactly
once as the claim demands. -/
theorem c5_double_restore_eval :
    ((collect_unfinished_restore_calls
        (LoadConfig.mk (some ["parquet"]) false 0 false)
        [JobFileInfo.mk "items" "a" 0 "reference"]).countP
      (fun c => c.file == JobFileInfo.mk "items" "a" 0 "reference") = 2)
    ∧ ((collect_unfinished_restore_calls (LoadConfig.mk none false 0 false)
        [JobFileInfo.mk "items" "a" 0 "reference"]).countP
      (fun c => c.file == JobFileInfo.mk "items" "a" 0 "reference") = 1)
    ∧ RestoreCall.mk none (JobFileInfo.mk "tbl" "b" 0 "parquet")
        ∈ collect_unfinished_restore_calls
            (LoadConfig.mk (some ["parquet"]) false 0 false)
            [JobFileInfo.mk "tbl" "b" 0 "parquet"] := by
  refine ⟨rfl, rfl, ?_⟩
  simp [collect_unfinished_restore_calls, retrieve_jobs, retrieve_jobs_go,
    is_staging_destination_job]

/-- C8 counterexample: with a staging destination supporting parquet, a
reference-format file that follows a parquet file in the started list is
restored by the staging client even though its extension is not among the
staging destination's supported formats, because the loop rebinds `client`. -/
theorem c8_counterexample :
    retrieve_jobs (LoadConfig.mk (some ["parquet"]) false 0 false)
        (some ClientTag.primary)
        [JobFileInfo.mk "t" "a" 0 "parquet", JobFileInfo.mk "t" "b" 0 "reference"]
        (some ClientTag.staging)
      = [RestoreCall.mk (some ClientTag.staging) (JobFileInfo.mk "t" "a" 0 "parquet"),
         RestoreCall.mk (some ClientTag.staging) (JobFileInfo.mk "t" "b" 0 "reference")]
    ∧ is_staging_destination_job (LoadConfig.mk (some ["parquet"]) false 0 false)
        (JobFileInfo.mk "t" "b" 0 "reference") = false :=
  ⟨rfl, rfl⟩

/-- C6: for a retried job under a positive `raise_on_max_retries` threshold
N, a pending max-retries exception is scheduled exactly when the
post-increment retry count is a positive multiple of N (hence repeatedly at
N, 2N, 3N, ...), and the job is still moved back to the new folder with an
incremented retry counter, leaving it retryable. -/
theorem c6_retry_threshold_multiples (cfg : LoadConfig) (client : ClientModel)
    (schema : SchemaModel) (load_id : String) (pkg : PackageJobs)
    (j : LoadJobModel) (hstate : j.state = TLoadJobState.retry)
    (hN : 0 < cfg.raise_on_max_retries) :
    ((stepJob cfg client schema load_id
        (StepResult.mk [] none pkg []) j).pending.isSome
      ↔ ∃ k, 0 < k ∧ j.fileInfo.retryCount + 1 = k * cfg.raise_on_max_retries)
    ∧ ((j.fileInfo.retryCount + 1) % cfg.raise_on_max_retries = 0 →
        (stepJob cfg client schema load_id
            (StepResult.mk [] none pkg []) j).pending
          = some (PendingException.jobRetry load_id j.fileInfo.jobId
              (j.fileInfo.retryCount + 1) cfg.raise_on_max_retries))
    ∧ j.fileInfo.with_retry
        ∈ (stepJob cfg client schema load_id
            (StepResult.mk [] none pkg []) j).pkg.new_jobs
    ∧ j.fileInfo
        ∉ (stepJob cfg client schema load_id
            (StepResult.mk [] none pkg []) j).pkg.started_jobs := by
  have hNne : cfg.raise_on_max_retries ≠ 0 := Nat.pos_iff_ne_zero.mp hN
  refine ⟨?_, ?_, ?_, ?_⟩
  · simp only [stepJob, stepPending, hstate]
    rw [if_pos hNne]
    by_cases hmod : (j.fileInfo.retryCount + 1) % cfg.raise_on_max_retries = 0
    · rw [if_pos (And.intro (Nat.succ_pos _) hmod)]
      simp only [Option.isSome_some, true_iff]
      exact ⟨(j.fileInfo.retryCount + 1) / cfg.raise_on_max_retries,
        Nat.div_pos (Nat.le_of_dvd (Nat.succ_pos _)
          (Nat.dvd_of_mod_eq_zero hmod)) hN,
        (Nat.div_mul_cancel (Nat.dvd_of_mod_eq_zero hmod)).symm⟩
    · rw [if_neg (fun h => hmod h.2)]
      simp only [Option.isSome_none, Bool.false_eq_true, false_iff]
      rintro ⟨k, _, hke⟩
      exact hmod (by rw [hke]; exact Nat.mul_mod_left k cfg.raise_on_max_retries)
  · intro hmod
    simp only [stepJob, stepPending, hstate]
    rw [if_pos hNne, if_pos (And.intro (Nat.succ_pos _) hmod)]
  · simp [stepJob, stepPkg, hstate, retry_job]
  · simp [stepJob, stepPkg, hstate, retry_job, List.mem_filter]

/-- Witness for C6: threshold 2, a job on its fourth attempt
(post-increment count 4 = 2 * 2) fires the advisory exception and the file
returns to the new folder. -/
theorem c6_witness :
    (LoadJobModel.mk (JobFileInfo.mk "t" "x" 3 "jsonl") TLoadJobState.retry
        false true "err" (fun _ => [])).state = TLoadJobState.retry
    ∧ 0 < (LoadConfig.mk none false 2 false).raise_on_max_retries
    ∧ ((stepJob (LoadConfig.mk none false 2 false)
        (ClientModel.mk (fun _ _ => [])) (SchemaModel.mk id (fun t => [t]))
        "load1" (StepResult.mk [] none (PackageJobs.mk [] [] [] []) [])
        (LoadJobModel.mk (JobFileInfo.mk "t" "x" 3 "jsonl") TLoadJobState.retry
          false true "err" (fun _ => []))).pending.isSome
      ↔ ∃ k, 0 < k ∧ 3 + 1 = k * 2) :=
  ⟨rfl, by decide,
    (c6_retry_threshold_multiples (LoadConfig.mk none false 2 false)
      (ClientModel.mk (fun _ _ => [])) (SchemaModel.mk id (fun t => [t]))
      "load1" (PackageJobs.mk [] [] [] [])
      (LoadJobModel.mk (JobFileInfo.mk "t" "x" 3 "jsonl") TLoadJobState.retry
        false true "err" (fun _ => [])) rfl (by decide)).1⟩

/-- C2: job construction never raises to the caller and classifies every
failure: a successful construction hands back the client's job; a terminal
destination error — including the client returning no job for the file —
finalizes the job as failed without it ever being runnable; any other
exception finalizes it as retry without it ever being runnable. -/
theorem c2_get_job_classifies_all_failures (supported : List String)
    (gc : GetJobClient) (f : JobFileInfo) :
    (∀ j, get_job_inner supported gc f = Except.ok j →
      get_job supported gc f = j)
    ∧ (∀ m, get_job_inner supported gc f = Except.error (ClientError.terminal m) →
        (get_job supported gc f).state = TLoadJobState.failed
        ∧ (get_job supported gc f).runnable = false
        ∧ runnable_submissions [get_job supported gc f] = [])
    ∧ (∀ m, get_job_inner supported gc f = Except.error (ClientError.other m) →
        (get_job supported gc f).state = TLoadJobState.retry
        ∧ (get_job supported gc f).runnable = false
        ∧ runnable_submissions [get_job supported gc f] = [])
    ∧ (f.fileFormat ∈ supported →
        (∃ d, gc.prepareLoadTable f.tableName = Except.ok d
          ∧ d ∈ ["append", "replace", "merge"]) →
        gc.getLoadJob = Except.ok none →
        ∃ m, get_job_inner supported gc f
          = Except.error (ClientError.terminal m)) := by
  refine ⟨?_, ?_, ?_, ?_⟩
  · intro j h
    simp [get_job, h]
  · intro m h
    simp [get_job, h, finalized_load_job, runnable_submissions]
  · intro m h
    simp [get_job, h, finalized_load_job, runnable_submissions]
  · rintro hfmt ⟨d, hp, hd⟩ hnull
    refine ⟨"Destination could not create a job for file", ?_⟩
    simp [get_job_inner, hfmt, hp, hd, hnull]

/-- Witness for C2: a client that returns no job for an otherwise valid
jsonl file yields a terminal error, and the resulting finalized job is
failed and not runnable. -/
theorem c2_witness :
    (∃ m, get_job_inner ["jsonl"]
        (GetJobClient.mk (fun _ => Except.ok "append") (Except.ok none))
        (JobFileInfo.mk "items" "f1" 0 "jsonl")
      = Except.error (ClientError.terminal m))
    ∧ (get_job ["jsonl"]
        (GetJobClient.mk (fun _ => Except.ok "append") (Except.ok none))
        (JobFileInfo.mk "items" "f1" 0 "jsonl")).state = TLoadJobState.failed :=
  ⟨(c2_get_job_classifies_all_failures ["jsonl"]
      (GetJobClient.mk (fun _ => Except.ok "append") (Except.ok none))
      (JobFileInfo.mk "items" "f1" 0 "jsonl")).2.2.2
      (by decide) ⟨"append", rfl, by decide⟩ rfl,
    ((c2_get_job_classifies_all_failures ["jsonl"]
      (GetJobClient.mk (fun _ => Except.ok "append") (Except.ok none))
      (JobFileInfo.mk "items" "f1" 0 "jsonl")).2.1
      "Destination could not create a job for file" rfl).1⟩

/-- C4 counterexample: a file whose construction raises a terminal
destination error (unsupported csv format here) is nevertheless placed into
the started folder, because `get_job` unconditionally calls `start_job` on
the finalized job. -/
theorem c4_counterexample :
    get_job_inner ["jsonl"]
        (GetJobClient.mk (fun _ => Except.ok "append") (Except.ok none))
        (JobFileInfo.mk "items" "f1" 0 "csv")
      = Except.error (ClientError.terminal "LoadClientUnsupportedFileFormats")
    ∧ JobFileInfo.mk "items" "f1" 0 "csv"
        ∈ (get_job_with_storage ["jsonl"]
            (GetJobClient.mk (fun _ => Except.ok "append") (Except.ok none))
            (PackageJobs.mk [JobFileInfo.mk "items" "f1" 0 "csv"] [] [] [])
            (JobFileInfo.mk "items" "f1" 0 "csv")).2.started_jobs := by
  refine ⟨rfl, ?_⟩
  simp [get_job_with_storage, start_job]

/-- C4 amended: on a terminal destination error during construction the file
does pass through the started folder — `start_job` moves it out of the new
folder during construction — but the finalized job is never runnable (so its
body never runs and it is never submitted), and the next `complete_jobs`
pass moves it from the started folder into the failed folder. -/
theorem c4_amended_terminal_construction_error (supported : List String)
    (gc : GetJobClient) (f : JobFileInfo) (pkg : PackageJobs)
    (cfg : LoadConfig) (client : ClientModel) (schema : SchemaModel)
    (load_id : String) (m : String)
    (hterm : get_job_inner supported gc f
      = Except.error (ClientError.terminal m)) :
    (get_job supported gc f).state = TLoadJobState.failed
    ∧ (get_job supported gc f).runnable = false
    ∧ runnable_submissions [get_job supported gc f] = []
    ∧ f ∈ (get_job_with_storage supported gc pkg f).2.started_jobs
    ∧ f ∉ (get_job_with_storage supported gc pkg f).2.new_jobs
    ∧ f ∈ (stepJob cfg client schema load_id
        (StepResult.mk [] none (get_job_with_storage supported gc pkg f).2 [])
        (get_job supported gc f)).pkg.failed_jobs
    ∧ f ∉ (stepJob cfg client schema load_id
        (StepResult.mk [] none (get_job_with_storage supported gc pkg f).2 [])
        (get_job supported gc f)).pkg.started_jobs := by
  have hjob : get_job supported gc f
      = finalized_load_job f TLoadJobState.failed m := by
    simp [get_job, hterm]
  refine ⟨by simp [hjob, finalized_load_job], by simp [hjob, finalized_load_job],
    by simp [hjob, finalized_load_job, runnable_submissions], ?_, ?_, ?_, ?_⟩
  · simp [get_job_with_storage, start_job]
  · simp [get_job_with_storage, start_job, List.mem_filter]
  · rw [hjob]
    simp [stepJob, stepPkg, finalized_load_job, create_followup_jobs,
      table_chain_part, fail_job, get_job_with_storage]
  · rw [hjob]
    simp [stepJob, stepPkg, finalized_load_job, create_followup_jobs,
      table_chain_part, fail_job, get_job_with_storage, List.mem_filter]

/-- Witness for C4's amended theorem at the counterexample input. -/
theorem c4_amended_witness :
    get_job_inner ["jsonl"]
        (GetJobClient.mk (fun _ => Except.ok "append") (Except.ok none))
        (JobFileInfo.mk "items" "f1" 0 "csv")
      = Except.error (ClientError.terminal "LoadClientUnsupportedFileFormats")
    ∧ JobFileInfo.mk "items" "f1" 0 "csv"
        ∈ (stepJob (LoadConfig.mk none false 0 false)
            (ClientModel.mk (fun _ _ => [])) (SchemaModel.mk id (fun t => [t]))
            "load1"
            (StepResult.mk [] none
              (get_job_with_storage ["jsonl"]
                (GetJobClient.mk (fun _ => Except.ok "append") (Except.ok none))
                (PackageJobs.mk [JobFileInfo.mk "items" "f1" 0 "csv"] [] [] [])
                (JobFileInfo.mk "items" "f1" 0 "csv")).2 [])
            (get_job ["jsonl"]
              (GetJobClient.mk (fun _ => Except.ok "append") (Except.ok none))
              (JobFileInfo.mk "items" "f1" 0 "csv"))).pkg.failed_jobs :=
  ⟨rfl,
    (c4_amended_terminal_construction_error ["jsonl"]
      (GetJobClient.mk (fun _ => Except.ok "append") (Except.ok none))
      (JobFileInfo.mk "items" "f1" 0 "csv")
      (PackageJobs.mk [JobFileInfo.mk "items" "f1" 0 "csv"] [] [] [])
      (LoadConfig.mk none false 0 false) (ClientModel.mk (fun _ _ => []))
      (SchemaModel.mk id (fun t => [t])) "load1"
      "LoadClientUnsupportedFileFormats" rfl).2.2.2.2.2.1⟩

/-- The client chosen for the i-th restoration: the staging client exactly
when some file among the first i+1 of the started list is a
staging-destination job, because the loop carries the rebound `client`. -/
theorem retrieve_jobs_go_getElem (cfg : LoadConfig) (stc : Option ClientTag) :
    ∀ (files : List JobFileInfo) (c : Option ClientTag) (i : Nat),
      (retrieve_jobs_go cfg stc c files)[i]? =
        (files[i]?).map (fun f =>
          RestoreCall.mk
            (if (files.take (i+1)).any (fun g => is_staging_destination_job cfg g)
             then stc else c) f) := by
  intro files
  induction files with
  | nil => intro c i; simp [retrieve_jobs_go]
  | cons f rest ih =>
      intro c i
      cases i with
      | zero => simp [retrieve_jobs_go]
      | succ i =>
          simp only [retrieve_jobs_go, List.getElem?_cons_succ,
            List.take_succ_cons, List.any_cons]
          rw [ih]
          cases rest[i]? with
          | none => rfl
          | some g =>
              simp only [Option.map_some']
              by_cases hsf : is_staging_destination_job cfg f = true <;>
                by_cases hA : ((rest.take (i + 1)).any
                    (fun g => is_staging_destination_job cfg g)) = true <;>
                  simp [hsf, hA]

/-- C8 amended: with a staging destination configured, job construction
routes a file to the staging client iff its extension is among the staging
destination's supported formats; restoration, however, carries the rebound
client variable, so the i-th started file is restored by the staging client
iff some file among the first i+1 (itself included) has a staging-supported
extension, and by the primary client otherwise. -/
theorem c8_amended_staging_routing :
    (∀ (cfg : LoadConfig) (fs : List String) (f : JobFileInfo),
      get_job_client_tag { cfg with stagingFormats := some fs } f
          = ClientTag.staging
        ↔ f.fileFormat ∈ fs)
    ∧ (∀ (cfg : LoadConfig) (fs : List String) (f : JobFileInfo),
      get_job_client_tag { cfg with stagingFormats := some fs } f
          = ClientTag.primary
        ↔ f.fileFormat ∉ fs)
    ∧ (∀ (cfg : LoadConfig) (files : List JobFileInfo) (i : Nat)
        (call : RestoreCall),
      (retrieve_jobs cfg (some ClientTag.primary) files
          (some ClientTag.staging))[i]? = some call →
        (call.client = some ClientTag.staging
            ↔ (files.take (i+1)).any
                (fun g => is_staging_destination_job cfg g) = true)
          ∧ (call.client = some ClientTag.primary
            ↔ (files.take (i+1)).any
                (fun g => is_staging_destination_job cfg g) = false)) := by
  refine ⟨?_, ?_, ?_⟩
  · intro cfg fs f
    by_cases h : f.fileFormat ∈ fs
    · simp [get_job_client_tag, is_staging_destination_job, h]
    · simp [get_job_client_tag, is_staging_destination_job, h]
  · intro cfg fs f
    by_cases h : f.fileFormat ∈ fs
    · simp [get_job_client_tag, is_staging_destination_job, h]
    · simp [get_job_client_tag, is_staging_destination_job, h]
  · intro cfg files i call hcall
    rw [retrieve_jobs, retrieve_jobs_go_getElem] at hcall
    cases hfi : files[i]? with
    | none =>
        rw [hfi, Option.map_none'] at hcall
        exact Option.noConfusion hcall
    | some g =>
        rw [hfi] at hcall
        simp only [Option.map_some', Option.some.injEq] at hcall
        cases hA : (files.take (i + 1)).any
            (fun x => is_staging_destination_job cfg x) <;>
          simp [← hcall, hA]

/-- Witness for C8's amended theorem: in the counterexample run the second
restored file is handled by the staging client, matching the
some-earlier-staging-file characterization. -/
theorem c8_amended_witness :
    (retrieve_jobs (LoadConfig.mk (some ["parquet"]) false 0 false)
        (some ClientTag.primary)
        [JobFileInfo.mk "t" "a" 0 "parquet", JobFileInfo.mk "t" "b" 0 "reference"]
        (some ClientTag.staging))[1]?
      = some (RestoreCall.mk (some ClientTag.staging)
          (JobFileInfo.mk "t" "b" 0 "reference"))
    ∧ ((RestoreCall.mk (some ClientTag.staging)
          (JobFileInfo.mk "t" "b" 0 "reference")).client = some ClientTag.staging
        ↔ (([JobFileInfo.mk "t" "a" 0 "parquet",
             JobFileInfo.mk "t" "b" 0 "reference"].take 2).any
            (fun g => is_staging_destination_job
              (LoadConfig.mk (some ["parquet"]) false 0 false) g) = true)) :=
  ⟨rfl,
    ((c8_amended_staging_routing).2.2
      (LoadConfig.mk (some ["parquet"]) false 0 false)
      [JobFileInfo.mk "t" "a" 0 "parquet", JobFileInfo.mk "t" "b" 0 "reference"]
      1 (RestoreCall.mk (some ClientTag.staging)
          (JobFileInfo.mk "t" "b" 0 "reference")) rfl).1⟩

/-- C7: follow-up resolution happens exactly for jobs transitioning into
completed or failed (never for running or retry); a capable finishing job's
own follow-ups are requested for both terminal outcomes; the table-chain arm
is evaluated only for completed jobs that are not staging-destination jobs. -/
theorem c7_followup_resolution_terminal_only :
    (∀ (cfg : LoadConfig) (client : ClientModel) (schema : SchemaModel)
        (pkg : PackageJobs) (j : LoadJobModel),
      (∃ s, LoadEvent.followupResolution j.fileInfo.jobId s
          ∈ stepEvents cfg client schema pkg j)
        ↔ (j.state = TLoadJobState.completed ∨ j.state = TLoadJobState.failed))
    ∧ (∀ (cfg : LoadConfig) (client : ClientModel) (schema : SchemaModel)
        (all : List (JobFolder × JobFileInfo)) (st : TLoadJobState)
        (j : LoadJobModel), j.hasFollowupJobs = true →
      ∀ fu ∈ j.ownFollowups st,
        fu ∈ create_followup_jobs cfg client schema all st j)
    ∧ (∀ (cfg : LoadConfig) (client : ClientModel) (schema : SchemaModel)
        (all : List (JobFolder × JobFileInfo)) (j : LoadJobModel),
      table_chain_part cfg client schema all TLoadJobState.failed j = [])
    ∧ (∀ (cfg : LoadConfig) (client : ClientModel) (schema : SchemaModel)
        (all : List (JobFolder × JobFileInfo)) (j : LoadJobModel),
      is_staging_destination_job cfg j.fileInfo = true →
      table_chain_part cfg client schema all TLoadJobState.completed j = []) := by
  refine ⟨?_, ?_, ?_, ?_⟩
  · intro cfg client schema pkg j
    cases hst : j.state with
    | ready => simp [stepEvents, hst]
    | running => simp [stepEvents, hst]
    | retry => simp [stepEvents, hst]
    | failed =>
        simp only [hst, or_true, iff_true]
        exact ⟨TLoadJobState.failed, by simp [stepEvents, hst]⟩
    | completed =>
        simp only [hst, true_or, iff_true]
        exact ⟨TLoadJobState.completed, by simp [stepEvents, hst]⟩
  · intro cfg client schema all st j hcap fu hfu
    simp [create_followup_jobs, hcap, hfu]
  · intro cfg client schema all j
    simp [table_chain_part]
  · intro cfg client schema all j hstag
    simp [table_chain_part, hstag]

/-- Witness for C7: a capable failed job requests its own follow-up and the
chain arm stays empty. -/
theorem c7_witness :
    (LoadJobModel.mk (JobFileInfo.mk "t" "x" 0 "jsonl") TLoadJobState.failed
        true true "err"
        (fun _ => [JobFileInfo.mk "t" "fu" 0 "sql"])).hasFollowupJobs = true
    ∧ JobFileInfo.mk "t" "fu" 0 "sql"
        ∈ (LoadJobModel.mk (JobFileInfo.mk "t" "x" 0 "jsonl")
            TLoadJobState.failed true true "err"
            (fun _ => [JobFileInfo.mk "t" "fu" 0 "sql"])).ownFollowups
          TLoadJobState.failed
    ∧ JobFileInfo.mk "t" "fu" 0 "sql"
        ∈ create_followup_jobs (LoadConfig.mk none false 0 false)
            (ClientModel.mk (fun _ _ => [])) (SchemaModel.mk id (fun t => [t]))
            [] TLoadJobState.failed
            (LoadJobModel.mk (JobFileInfo.mk "t" "x" 0 "jsonl")
              TLoadJobState.failed true true "err"
              (fun _ => [JobFileInfo.mk "t" "fu" 0 "sql"])) :=
  ⟨rfl, by simp,
    c7_followup_resolution_terminal_only.2.1 (LoadConfig.mk none false 0 false)
      (ClientModel.mk (fun _ _ => [])) (SchemaModel.mk id (fun t => [t]))
      [] TLoadJobState.failed
      (LoadJobModel.mk (JobFileInfo.mk "t" "x" 0 "jsonl") TLoadJobState.failed
        true true "err" (fun _ => [JobFileInfo.mk "t" "fu" 0 "sql"]))
      rfl (JobFileInfo.mk "t" "fu" 0 "sql") (by simp)⟩

/-- A file in the started folder appears in the all-jobs snapshot under the
started folder. -/
theorem allJobs_started_mem (pkg : PackageJobs) (f : JobFileInfo)
    (h : f ∈ pkg.started_jobs) :
    (JobFolder.started_jobs, f) ∈ allJobs pkg := by
  unfold allJobs
  refine List.mem_append.mpr (Or.inl (List.mem_append.mpr
    (Or.inl (List.mem_append.mpr (Or.inr ?_)))))
  exact List.mem_map_of_mem _ h

/-- A successful chain-completion check certifies that every job for every
chain table is terminal in the snapshot or is the triggering job. -/
theorem get_completed_table_chain_gating (schema : SchemaModel)
    (all : List (JobFolder × JobFileInfo)) (top bid : String)
    (chain : List String)
    (h : get_completed_table_chain schema all top bid = some chain) :
    chain = schema.chainOf top
    ∧ ∀ p ∈ all, p.2.tableName ∈ chain →
        p.1 = JobFolder.completed_jobs ∨ p.1 = JobFolder.failed_jobs
          ∨ p.2.jobId = bid := by
  unfold get_completed_table_chain at h
  by_cases hc : ((schema.chainOf top).all (fun t =>
      (all.filter (fun p => p.2.tableName == t)).all (fun p =>
        p.1 == JobFolder.completed_jobs || p.1 == JobFolder.failed_jobs
          || p.2.jobId == bid))) = true
  · rw [if_pos hc] at h
    have hchain : chain = schema.chainOf top := by
      injection h with h'
      exact h'.symm
    refine ⟨hchain, ?_⟩
    intro p hp htab
    have h1 := List.all_eq_true.mp hc p.2.tableName (by rw [← hchain]; exact htab)
    have h2 := List.all_eq_true.mp h1 p
      (List.mem_filter.mpr ⟨hp, by simp⟩)
    simp only [Bool.or_eq_true, beq_iff_eq] at h2
    tauto
  · rw [if_neg hc] at h
    exact Option.noConfusion h

/-- A chain firing in a completion step identifies the trigger's top-level
table and certifies the gating condition over the pre-move snapshot. -/
theorem chainFire_mem_stepEvents (cfg : LoadConfig) (client : ClientModel)
    (schema : SchemaModel) (pkg : PackageJobs) (j : LoadJobModel) (T : String)
    (h : LoadEvent.chainFire T ∈ stepEvents cfg client schema pkg j) :
    schema.topOf j.fileInfo.tableName = T
    ∧ ∀ p ∈ allJobs pkg, p.2.tableName ∈ schema.chainOf T →
        p.1 = JobFolder.completed_jobs ∨ p.1 = JobFolder.failed_jobs
          ∨ p.2.jobId = j.fileInfo.jobId := by
  cases hst : j.state with
  | ready => simp [stepEvents, hst] at h
  | running => simp [stepEvents, hst] at h
  | retry => simp [stepEvents, hst] at h
  | failed => simp [stepEvents, hst] at h
  | completed =>
      have hch : LoadEvent.chainFire T ∈ chainFireEvents cfg client schema pkg j := by
        simp only [stepEvents, hst, List.mem_append, List.mem_cons,
          List.mem_singleton, List.mem_map, List.not_mem_nil] at h
        rcases h with ((h | h) | h) | h | h
        · exact absurd h (by simp)
        · exact h
        · obtain ⟨a, _, ha⟩ := h
          exact absurd ha (by simp)
        · exact absurd h (by simp)
        · exact absurd h (by simp)
      unfold chainFireEvents at hch
      by_cases hcap : (j.hasFollowupJobs
          && !(is_staging_destination_job cfg j.fileInfo)) = true
      · rw [if_pos hcap] at hch
        cases htcf : table_chain_followups client schema (allJobs pkg) j with
        | none => simp only [htcf, List.not_mem_nil] at hch
        | some pr =>
            obtain ⟨t, fjs⟩ := pr
            simp only [htcf] at hch
            by_cases hemp : fjs.isEmpty = true
            · rw [if_pos hemp] at hch
              exact absurd hch (List.not_mem_nil _)
            · rw [if_neg hemp] at hch
              have hTt : T = t := by simpa using hch
              simp only [table_chain_followups] at htcf
              cases hg : get_completed_table_chain schema (allJobs pkg)
                  (schema.topOf j.fileInfo.tableName) j.fileInfo.jobId with
              | none =>
                  simp only [hg] at htcf
                  exact Option.noConfusion htcf
              | some chain =>
                  simp only [hg, Option.some.injEq, Prod.mk.injEq] at htcf
                  obtain ⟨hteq, -⟩ := htcf
                  obtain ⟨hchain, hgate⟩ := get_completed_table_chain_gating
                    schema (allJobs pkg) (schema.topOf j.fileInfo.tableName)
                    j.fileInfo.jobId chain hg
                  have htopT : schema.topOf j.fileInfo.tableName = T := by
                    rw [hteq, ← hTt]
                  refine ⟨htopT, ?_⟩
                  intro p hp htab
                  apply hgate p hp
                  rw [hchain, htopT]
                  exact htab
      · rw [if_neg hcap] at hch
        exact absurd hch (List.not_mem_nil _)

/-- Importing follow-up jobs never touches the started folder. -/
theorem foldl_import_job_started (l : List JobFileInfo) :
    ∀ pkg : PackageJobs,
      (l.foldl import_job pkg).started_jobs = pkg.started_jobs := by
  induction l with
  | nil => intro pkg; rfl
  | cons a l ih => intro pkg; rw [List.foldl_cons, ih]; rfl

/-- A completion step only ever removes the finishing job's own file from
the started folder. -/
theorem stepPkg_started_mem (cfg : LoadConfig) (client : ClientModel)
    (schema : SchemaModel) (pkg : PackageJobs) (j : LoadJobModel)
    (x : JobFileInfo) (hx : x ∈ pkg.started_jobs) (hne : x ≠ j.fileInfo) :
    x ∈ (stepPkg cfg client schema pkg j).started_jobs := by
  cases hst : j.state with
  | ready => simpa [stepPkg, hst] using hx
  | running => simpa [stepPkg, hst] using hx
  | retry => simp [stepPkg, hst, retry_job, List.mem_filter, hx, hne]
  | failed =>
      simp [stepPkg, hst, fail_job, foldl_import_job_started,
        List.mem_filter, hx, hne]
  | completed =>
      simp [stepPkg, hst, complete_job, foldl_import_job_started,
        List.mem_filter, hx, hne]

/-- One completion step fires at most one chain. -/
theorem fireCount_stepEvents_le_one (cfg : LoadConfig) (client : ClientModel)
    (schema : SchemaModel) (pkg : PackageJobs) (j : LoadJobModel) (T : String) :
    fireCount T (stepEvents cfg client schema pkg j) ≤ 1 := by
  have himp : ∀ (l : List JobFileInfo),
      (l.map LoadEvent.importJob).countP
        (fun e => e == LoadEvent.chainFire T) = 0 := by
    intro l
    refine List.countP_eq_zero.mpr ?_
    intro a ha
    obtain ⟨b, _, rfl⟩ := List.mem_map.mp ha
    simp
  have hch : (chainFireEvents cfg client schema pkg j).length ≤ 1 := by
    unfold chainFireEvents
    by_cases hcap : (j.hasFollowupJobs
        && !(is_staging_destination_job cfg j.fileInfo)) = true
    · rw [if_pos hcap]
      cases htcf : table_chain_followups client schema (allJobs pkg) j with
      | none => simp
      | some pr =>
          obtain ⟨t, fjs⟩ := pr
          by_cases hemp : fjs.isEmpty = true
          · simp [hemp]
          · simp [hemp]
    · rw [if_neg hcap]
      simp
  cases hst : j.state with
  | ready =>
      unfold fireCount
      simp only [stepEvents, hst]
      simp
  | running =>
      unfold fireCount
      simp only [stepEvents, hst]
      simp
  | retry =>
      unfold fireCount
      simp only [stepEvents, hst]
      simp
  | failed =>
      unfold fireCount
      simp only [stepEvents, hst]
      rw [List.countP_append, List.countP_append]
      have h2 := himp (create_followup_jobs cfg client schema (allJobs pkg)
        TLoadJobState.failed j)
      have h1 : List.countP (fun e => e == LoadEvent.chainFire T)
          [LoadEvent.followupResolution j.fileInfo.jobId
            TLoadJobState.failed] = 0 := by simp
      have h3 : List.countP (fun e => e == LoadEvent.chainFire T)
          [LoadEvent.failJob j.fileInfo, LoadEvent.collectorUpdate none,
            LoadEvent.collectorUpdate (some "Failed")] = 0 := by simp
      omega
  | completed =>
      unfold fireCount
      simp only [stepEvents, hst]
      rw [List.countP_append, List.countP_append, List.countP_append]
      have h2 := himp (create_followup_jobs cfg client schema (allJobs pkg)
        TLoadJobState.completed j)
      have h1 : List.countP (fun e => e == LoadEvent.chainFire T)
          [LoadEvent.followupResolution j.fileInfo.jobId
            TLoadJobState.completed] = 0 := by simp
      have h3 : List.countP (fun e => e == LoadEvent.chainFire T)
          [LoadEvent.completeJob j.fileInfo,
            LoadEvent.collectorUpdate none] = 0 := by simp
      have h4 := List.countP_le_length
        (p := fun e => e == LoadEvent.chainFire T)
        (l := chainFireEvents cfg client schema pkg j)
      omega

/-- A run of completion steps whose triggers all have top-level tables other
than T never fires T's chain. -/
theorem fireCount_foldl_nofire (cfg : LoadConfig) (client : ClientModel)
    (schema : SchemaModel) (load_id : String) (T : String) :
    ∀ (jobs : List LoadJobModel) (acc : StepResult),
      (∀ j ∈ jobs, schema.topOf j.fileInfo.tableName ≠ T) →
      fireCount T ((jobs.foldl (stepJob cfg client schema load_id) acc).events)
        = fireCount T acc.events := by
  intro jobs
  induction jobs with
  | nil => intro acc _; rfl
  | cons j rest ih =>
      intro acc h
      rw [List.foldl_cons,
        ih _ (fun j' hj' => h j' (List.mem_cons_of_mem _ hj'))]
      show fireCount T (acc.events ++ stepEvents cfg client schema acc.pkg j)
        = fireCount T acc.events
      have hz : (stepEvents cfg client schema acc.pkg j).countP
          (fun e => e == LoadEvent.chainFire T) = 0 := by
        refine List.countP_eq_zero.mpr ?_
        intro e he hbeq
        have he' : e = LoadEvent.chainFire T := by simpa using hbeq
        subst he'
        exact h j (List.mem_cons_self _ _)
          (chainFire_mem_stepEvents cfg client schema acc.pkg j T he).1
      unfold fireCount
      rw [List.countP_append, hz]
      omega

/-- Core of the at-most-once argument: over one `complete_jobs` pass whose
tracked jobs are pairwise distinct files present in the started folder, the
chain of any top-level table T fires at most once more than it already did
in the accumulated trace.  If a step fires T, the gating condition forces
every other tracked job for a T-chain table to be terminal in that snapshot,
which contradicts its presence in the started folder — so no later step can
fire T again. -/
theorem fireCount_foldl_le_one (cfg : LoadConfig) (client : ClientModel)
    (schema : SchemaModel) (load_id : String) (T : String) :
    ∀ (jobs : List LoadJobModel) (acc : StepResult),
      (∀ j ∈ jobs, j.fileInfo ∈ acc.pkg.started_jobs) →
      jobs.Pairwise (fun a b => a.fileInfo.jobId ≠ b.fileInfo.jobId
        ∧ a.fileInfo ≠ b.fileInfo) →
      (∀ j ∈ jobs, j.fileInfo.tableName
        ∈ schema.chainOf (schema.topOf j.fileInfo.tableName)) →
      fireCount T ((jobs.foldl (stepJob cfg client schema load_id) acc).events)
        ≤ fireCount T acc.events + 1 := by
  intro jobs
  induction jobs with
  | nil => intro acc _ _ _; exact Nat.le_succ_of_le (Nat.le_refl _)
  | cons j rest ih =>
      intro acc h1 h2 h3
      rw [List.foldl_cons]
      have hpw := List.pairwise_cons.mp h2
      by_cases hfire : LoadEvent.chainFire T
          ∈ stepEvents cfg client schema acc.pkg j
      · obtain ⟨htop, hgate⟩ :=
          chainFire_mem_stepEvents cfg client schema acc.pkg j T hfire
        have hrest : ∀ j' ∈ rest, schema.topOf j'.fileInfo.tableName ≠ T := by
          intro j' hj' hTeq
          have hchain : j'.fileInfo.tableName ∈ schema.chainOf T := by
            rw [← hTeq]
            exact h3 j' (List.mem_cons_of_mem _ hj')
          have hmem : (JobFolder.started_jobs, j'.fileInfo) ∈ allJobs acc.pkg :=
            allJobs_started_mem acc.pkg j'.fileInfo
              (h1 j' (List.mem_cons_of_mem _ hj'))
          rcases hgate _ hmem hchain with hA | hA | hA
          · exact JobFolder.noConfusion hA
          · exact JobFolder.noConfusion hA
          · exact (hpw.1 j' hj').1 hA.symm
        rw [fireCount_foldl_nofire cfg client schema load_id T rest _ hrest]
        show fireCount T (acc.events ++ stepEvents cfg client schema acc.pkg j)
          ≤ fireCount T acc.events + 1
        have hle := fireCount_stepEvents_le_one cfg client schema acc.pkg j T
        unfold fireCount at hle ⊢
        rw [List.countP_append]
        omega
      · have hz : (stepEvents cfg client schema acc.pkg j).countP
            (fun e => e == LoadEvent.chainFire T) = 0 := by
          refine List.countP_eq_zero.mpr ?_
          intro e he hbeq
          have he' : e = LoadEvent.chainFire T := by simpa using hbeq
          subst he'
          exact hfire he
        have h1' : ∀ j' ∈ rest,
            j'.fileInfo ∈ (stepJob cfg client schema load_id acc j).pkg.started_jobs := by
          intro j' hj'
          exact stepPkg_started_mem cfg client schema acc.pkg j j'.fileInfo
            (h1 j' (List.mem_cons_of_mem _ hj')) (Ne.symm (hpw.1 j' hj').2)
        have hle := ih (stepJob cfg client schema load_id acc j) h1' hpw.2
          (fun j' hj' => h3 j' (List.mem_cons_of_mem _ hj'))
        have hev : fireCount T (stepJob cfg client schema load_id acc j).events
            = fireCount T acc.events := by
          show fireCount T (acc.events ++ stepEvents cfg client schema acc.pkg j)
            = fireCount T acc.events
          unfold fireCount
          rw [List.countP_append, hz]
          omega
        rw [hev] at hle
        exact hle

/-- Every trace annotation emitted by the chain arm is a chain firing. -/
theorem chainFireEvents_shape (cfg : LoadConfig) (client : ClientModel)
    (schema : SchemaModel) (pkg : PackageJobs) (j : LoadJobModel) :
    ∀ e ∈ chainFireEvents cfg client schema pkg j,
      ∃ t, e = LoadEvent.chainFire t := by
  intro e he
  unfold chainFireEvents at he
  by_cases hcap : (j.hasFollowupJobs
      && !(is_staging_destination_job cfg j.fileInfo)) = true
  · rw [if_pos hcap] at he
    cases htcf : table_chain_followups client schema (allJobs pkg) j with
    | none => simp only [htcf, List.not_mem_nil] at he
    | some pr =>
        obtain ⟨t, fjs⟩ := pr
        simp only [htcf] at he
        by_cases hemp : fjs.isEmpty = true
        · rw [if_pos hemp] at he
          exact absurd he (List.not_mem_nil _)
        · rw [if_neg hemp] at he
          rw [List.mem_singleton] at he
          exact ⟨t, he⟩
  · rw [if_neg hcap] at he
    exact absurd he (List.not_mem_nil _)

/-- C1: table-chain follow-ups are produced only when every job for every
table of the trigger's chain is terminal in the current snapshot, with the
triggering job (still physically in the started folder) counted as already
terminal via its job id; in a completed step all follow-up imports precede
the move of the trigger's file to the completed folder; and over a whole
`complete_jobs` pass of pairwise-distinct started jobs a chain fires at most
once. -/
theorem c1_table_chain_followups_gated_ordered_once :
    (∀ (client : ClientModel) (schema : SchemaModel)
        (all : List (JobFolder × JobFileInfo)) (j : LoadJobModel)
        (t : String) (fjs : List JobFileInfo),
      table_chain_followups client schema all j = some (t, fjs) →
        t = schema.topOf j.fileInfo.tableName
        ∧ ∀ p ∈ all, p.2.tableName ∈ schema.chainOf t →
            p.1 = JobFolder.completed_jobs ∨ p.1 = JobFolder.failed_jobs
              ∨ p.2.jobId = j.fileInfo.jobId)
    ∧ (∀ (cfg : LoadConfig) (client : ClientModel) (schema : SchemaModel)
        (pkg : PackageJobs) (j : LoadJobModel),
      j.state = TLoadJobState.completed →
        ∃ pre, stepEvents cfg client schema pkg j
            = pre ++ [LoadEvent.completeJob j.fileInfo,
                LoadEvent.collectorUpdate none]
          ∧ (∀ fu ∈ create_followup_jobs cfg client schema (allJobs pkg)
                TLoadJobState.completed j,
              LoadEvent.importJob fu ∈ pre)
          ∧ ∀ g, LoadEvent.completeJob g ∉ pre)
    ∧ (∀ (cfg : LoadConfig) (client : ClientModel) (schema : SchemaModel)
        (load_id : String) (pkg : PackageJobs) (jobs : List LoadJobModel)
        (T : String),
      (∀ j ∈ jobs, j.fileInfo ∈ pkg.started_jobs) →
      jobs.Pairwise (fun a b => a.fileInfo.jobId ≠ b.fileInfo.jobId
        ∧ a.fileInfo ≠ b.fileInfo) →
      (∀ j ∈ jobs, j.fileInfo.tableName
        ∈ schema.chainOf (schema.topOf j.fileInfo.tableName)) →
      fireCount T (complete_jobs cfg client schema load_id pkg jobs).events
        ≤ 1) := by
  refine ⟨?_, ?_, ?_⟩
  · intro client schema all j t fjs htcf
    simp only [table_chain_followups] at htcf
    cases hg : get_completed_table_chain schema all
        (schema.topOf j.fileInfo.tableName) j.fileInfo.jobId with
    | none =>
        simp only [hg] at htcf
        exact Option.noConfusion htcf
    | some chain =>
        simp only [hg, Option.some.injEq, Prod.mk.injEq] at htcf
        obtain ⟨hteq, -⟩ := htcf
        obtain ⟨hchain, hgate⟩ := get_completed_table_chain_gating schema all
          (schema.topOf j.fileInfo.tableName) j.fileInfo.jobId chain hg
        refine ⟨hteq.symm, ?_⟩
        intro p hp htab
        apply hgate p hp
        rw [hchain, hteq]
        exact htab
  · intro cfg client schema pkg j hst
    refine ⟨[LoadEvent.followupResolution j.fileInfo.jobId
        TLoadJobState.completed]
      ++ chainFireEvents cfg client schema pkg j
      ++ (create_followup_jobs cfg client schema (allJobs pkg)
            TLoadJobState.completed j).map LoadEvent.importJob, ?_, ?_, ?_⟩
    · simp [stepEvents, hst]
    · intro fu hfu
      exact List.mem_append.mpr (Or.inr (List.mem_map_of_mem _ hfu))
    · intro g hgmem
      rcases List.mem_append.mp hgmem with hg | hg
      · rcases List.mem_append.mp hg with hg2 | hg2
        · rw [List.mem_singleton] at hg2
          exact LoadEvent.noConfusion hg2
        · obtain ⟨t, ht⟩ := chainFireEvents_shape cfg client schema pkg j _ hg2
          exact LoadEvent.noConfusion ht
      · obtain ⟨a, _, ha⟩ := List.mem_map.mp hg
        exact LoadEvent.noConfusion ha
  · intro cfg client schema load_id pkg jobs T h1 h2 h3
    have := fireCount_foldl_le_one cfg client schema load_id T jobs
      { remaining := [], pending := none, pkg := pkg, events := [] } h1 h2 h3
    simpa [complete_jobs, fireCount] using this

/-- Witness for C1: a two-table chain (top, child) whose two started jobs
both complete in one pass fires the chain at most once. -/
theorem c1_witness :
    (∀ j ∈ [LoadJobModel.mk (JobFileInfo.mk "top" "a" 0 "jsonl")
          TLoadJobState.completed true true "" (fun _ => []),
        LoadJobModel.mk (JobFileInfo.mk "child" "b" 0 "jsonl")
          TLoadJobState.completed true true "" (fun _ => [])],
      j.fileInfo ∈ (PackageJobs.mk []
        [JobFileInfo.mk "top" "a" 0 "jsonl",
         JobFileInfo.mk "child" "b" 0 "jsonl"] [] []).started_jobs)
    ∧ fireCount "top"
        (complete_jobs (LoadConfig.mk none false 0 false)
          (ClientModel.mk (fun _ _ => [JobFileInfo.mk "top" "m" 0 "sql"]))
          (SchemaModel.mk (fun _ => "top") (fun _ => ["top", "child"]))
          "load1"
          (PackageJobs.mk []
            [JobFileInfo.mk "top" "a" 0 "jsonl",
             JobFileInfo.mk "child" "b" 0 "jsonl"] [] [])
          [LoadJobModel.mk (JobFileInfo.mk "top" "a" 0 "jsonl")
            TLoadJobState.completed true true "" (fun _ => []),
           LoadJobModel.mk (JobFileInfo.mk "child" "b" 0 "jsonl")
            TLoadJobState.completed true true "" (fun _ => [])]).events ≤ 1 :=
  ⟨by intro j hj; fin_cases hj <;> simp,
    c1_table_chain_followups_gated_ordered_once.2.2
      (LoadConfig.mk none false 0 false)
      (ClientModel.mk (fun _ _ => [JobFileInfo.mk "top" "m" 0 "sql"]))
      (SchemaModel.mk (fun _ => "top") (fun _ => ["top", "child"]))
      "load1"
      (PackageJobs.mk []
        [JobFileInfo.mk "top" "a" 0 "jsonl",
         JobFileInfo.mk "child" "b" 0 "jsonl"] [] [])
      [LoadJobModel.mk (JobFileInfo.mk "top" "a" 0 "jsonl")
        TLoadJobState.completed true true "" (fun _ => []),
       LoadJobModel.mk (JobFileInfo.mk "child" "b" 0 "jsonl")
        TLoadJobState.completed true true "" (fun _ => [])]
      "top"
      (by intro j hj; fin_cases hj <;> simp)
      (by
        refine List.pairwise_cons.mpr ⟨?_, List.pairwise_singleton _ _⟩
        intro b hb
        rw [List.mem_singleton] at hb
        subst hb
        refine ⟨by decide, by decide⟩)
      (by intro j hj; fin_cases hj <;> simp)⟩

end DltLoad
